import Mathlib

/-!
Shallow embedding of `src/process_unix.cpp` (libmozart/process, POSIX
engine): executable search-path resolution, the shebang-less script
fallback, descriptor sweeping, child-side launch steps and the process
supervisor (`wait_for`, `process_exited`).  Machine integers are modelled
as `Nat`/`Int`; OS calls (waitpid, execve, close, stat, sigaction) are
modelled by passing their observable outcomes explicitly.
-/

namespace ProcessUnix

/-! ### errno values (Linux, as used by the source) -/

def ENOENT : Nat := 2
def EINTR : Nat := 4
def ENOEXEC : Nat := 8
def ECHILD : Nat := 10
def EACCES : Nat := 13
def ENODEV : Nat := 19
def ENOTDIR : Nat := 20
def ENAMETOOLONG : Nat := 36
def ELOOP : Nat := 40
def ETIMEDOUT : Nat := 110
def ESTALE : Nat := 116

/-! ### `wait_for` (process_unix.cpp lines 373-404)

`waitpid(pid, &status, 0)` either fails with an errno or yields a wait
status word.  The retry loop is modelled by feeding `wait_for` the
sequence of outcomes successive `waitpid` calls would produce; `none`
means the modelled outcome sequence was exhausted (a real `waitpid`
always produces another outcome). -/

inductive WaitEvent where
  | err (e : Nat)     -- waitpid returned -1 with this errno
  | ok (status : Nat) -- waitpid returned the pid, with this status word
deriving DecidableEq, Repr

/-- `WIFEXITED(status)`: `(status & 0x7f) == 0` (glibc). -/
def wifexited (s : Nat) : Bool := s % 128 == 0

/-- `WEXITSTATUS(status)`: `(status >> 8) & 0xff` (glibc). -/
def wexitstatus (s : Nat) : Nat := (s / 256) % 256

/-- `WIFSIGNALED(status)`: `((signed char)(((status & 0x7f) + 1) >> 1)) > 0`
(glibc); true exactly when `1 ≤ status & 0x7f ≤ 0x7e`. -/
def wifsignaled (s : Nat) : Bool := (1 ≤ s % 128) && (s % 128 ≤ 126)

/-- `WTERMSIG(status)`: `status & 0x7f` (glibc). -/
def wtermsig (s : Nat) : Nat := s % 128

/-- The tail of `wait_for` (lines 386-403): decode the wait status. -/
def decode_status (s : Nat) : Int :=
  if wifexited s then (wexitstatus s : Int)
  else if wifsignaled s then (128 + wtermsig s : Int)
  else (s : Int)

/-- `wait_for` (lines 373-404): loop on `waitpid` outcomes; on `ECHILD`
return 0, on `EINTR` retry, on any other errno return -1; on success
decode the status word. -/
def wait_for : List WaitEvent → Option Int
  | [] => none
  | WaitEvent.err e :: rest =>
      if e == ECHILD then some 0
      else if e == EINTR then wait_for rest
      else some (-1)
  | WaitEvent.ok s :: _ => some (decode_status s)

/-! ### `process_exited` (process_unix.cpp lines 410-461)

The observable OS state a single call depends on: the result of
`waitpid(pid, nullptr, WNOHANG)` (-1, 0, or the pid) with its errno,
whether the `SIGCHLD` disposition is `SIG_IGN`, and whether
`/proc/<pid>` exists.  `none` models the `throw_ex` branches. -/

structure PollEnv where
  waitpid_result : Int    -- -1 on error, 0 if not yet changed state, else pid
  waitpid_errno : Nat
  sigchld_ignored : Bool  -- sigaction(SIGCHLD) handler == SIG_IGN
  proc_dir_exists : Bool  -- stat("/proc/<pid>") succeeds
deriving DecidableEq, Repr

/-- `process_exited` (lines 410-461), transcribed branch for branch:
on `-1`/`ECHILD` it disambiguates via the `SIGCHLD` disposition (and the
`/proc/<pid>` check when ignored); otherwise it returns `result == 0`. -/
def process_exited (env : PollEnv) : Option Bool :=
  if env.waitpid_result = -1 then
    if env.waitpid_errno ≠ ECHILD then none
    else if env.sigchld_ignored then
      -- stat(path) == -1 && errno == ENOENT
      some (!env.proc_dir_exists)
    else
      -- "the child has exited too early before we checked it"
      some true
  else
    some (env.waitpid_result == 0)

/-! ### Executable Resolver (process_unix.cpp lines 78-115)

`getenv("PATH")` is modelled by an explicit `Option String` (absent
variable = `none`, a set-but-empty variable = `some ""`). -/

def default_path_env : String := ":/bin:/usr/bin"

/-- `get_path_env` (lines 85-88): the default is used only when
`getenv` returned a null pointer. -/
def get_path_env (path_var : Option String) : String :=
  match path_var with
  | some s => s
  | none => default_path_env

/-- The splitting loop of `effective_pathv` (lines 105-113): each `:`
ends a segment (`strcspn`/`'\0'` overwrite), so a path of N-1 colons
yields N segments. -/
def split_segments : List Char → List (List Char)
  | [] => [[]]
  | c :: rest =>
      if c = ':' then [] :: split_segments rest
      else
        match split_segments rest with
        | s :: ss => (c :: s) :: ss
        | [] => [[c]]

/-- The entries stored into `pathv` (line 109): an empty segment
(`p == sep`) becomes `"."`. -/
def pathv_entries (path : List Char) : List (List Char) :=
  (split_segments path).map (fun s => if s = [] then ['.'] else s)

/-! Allocation arithmetic of `effective_pathv` (lines 93-103), on an
LP64 platform where `sizeof(const char *) = 8`.  The single `malloc`
block holds `pathvsize + pathsize` bytes; the code then computes
`p = reinterpret_cast<char *>(pathv + pathvsize)`, i.e. it advances
`pathv` by `pathvsize` *elements* of 8 bytes each, and copies the
`pathsize`-byte path string at that byte offset. -/

def sizeof_char_ptr : Nat := 8

/-- `pathvsize = sizeof(const char *) * (count + 1)` (line 94). -/
def pathvsize (count : Nat) : Nat := sizeof_char_ptr * (count + 1)

/-- Size in bytes of the `malloc(pathvsize + pathsize)` block (line 96). -/
def effective_pathv_alloc (count psize : Nat) : Nat := pathvsize count + psize

/-- Byte offset, from the start of the block, of
`reinterpret_cast<char *>(pathv + pathvsize)` (line 102): pointer
arithmetic on a `const char **` advances in 8-byte units. -/
def p_byte_offset (count : Nat) : Nat := sizeof_char_ptr * pathvsize count

/-! ### Image Replacement Adapter (process_unix.cpp lines 122-149)

`execve_without_shebang` shifts the argument vector in place
(`memmove(argv + 2, argv + 1, (end - argv) * sizeof(*end))`), writes
`argv[0] = "/bin/sh"`, `argv[1] = file`, and on failure of the `/bin/sh`
exec moves everything back and restores `argv[0]`.  The vector is
modelled as the list of entries before the terminating null pointer. -/

/-- Entry list after the forward `memmove` plus the two stores
(lines 129-131). -/
def shebang_shift (file : String) (argv : List String) : List String :=
  match argv with
  | [] => []
  | _argv0 :: rest => "/bin/sh" :: file :: rest

/-- Entry list after the restoring `memmove` plus `argv[0] = argv0`
(lines 135-136). -/
def shebang_restore (argv0 : String) (argv : List String) : List String :=
  match argv with
  | _ :: _ :: rest => argv0 :: rest
  | l => l

/-- Array slots the shifted vector occupies: with `end - argv = n`
entries, the `memmove` writes indices `2 .. n + 1` (the moved null
pointer lands at index `n + 1`), so `n + 2` slots are touched. -/
def shebang_slots_needed (file : String) (argv : List String) : Nat :=
  (shebang_shift file argv).length + 1

/-- Slots of the array `child_proc` materializes (line 269):
`char *argv[asize + 1]` — the entries plus one slot for the null
pointer, with no extra leading slot. -/
def child_argv_slots (asize : Nat) : Nat := asize + 1

/-! ### Descriptor Sweeper (process_unix.cpp lines 42-76 and 296-306)

A descriptor table is modelled as the list of currently open descriptor
numbers; `close(fd)` removes `fd` from it. -/

def STDERR_FILENO : Nat := 2

/-- `FAIL_FILENO = STDERR_FILENO + 1` (line 42). -/
def FAIL_FILENO : Nat := STDERR_FILENO + 1

/-- The local `from_fd = FAIL_FILENO + 1` of `close_all_descriptors`
(line 47). -/
def from_fd : Nat := FAIL_FILENO + 1

/-- `close(fd)`: the descriptor is no longer open. -/
def close_fd_set (fds : List Nat) (fd : Nat) : List Nat :=
  fds.filter (fun x => x != fd)

/-- The `readdir64` loop (lines 66-72): for each entry of the
`/proc/self/fd` listing, close it when its number is `>= from_fd + 2`. -/
def scan_loop : List Nat → List Nat → List Nat
  | [], fds => fds
  | fd :: rest, fds =>
      scan_loop rest (if from_fd + 2 ≤ fd then close_fd_set fds fd else fds)

/-- `close_all_descriptors`, directory-scan strategy (lines 44-76):
explicitly close `from_fd` and `from_fd + 1`, open the fd directory
(`dirfd` is the descriptor `opendir` allocates — per the code's comment
the lowest free one, hence a number `< from_fd + 2`), sweep the listing,
then `closedir`. -/
def close_all_descriptors_scan (fds0 : List Nat) (dirfd : Nat) : List Nat :=
  let s1 := close_fd_set fds0 from_fd
  let s2 := close_fd_set s1 (from_fd + 1)
  let listing := dirfd :: s2
  close_fd_set (scan_loop listing listing) dirfd

/-- The body of the brute-force fallback loop, iterated once per
remaining trip: close `fd`, then `fd + 1`, ... (an `EBADF` close is a
no-op on the model, as in the code). -/
def brute_force_aux (fds : List Nat) (fd : Nat) : Nat → List Nat
  | 0 => fds
  | n + 1 => brute_force_aux (close_fd_set fds fd) (fd + 1) n

/-- The brute-force fallback loop of `child_proc` (lines 298-305):
`for (int fd = FAIL_FILENO + 1; fd < max_fd; fd++) close(fd);`,
with its `max_fd - fd` trips made explicit. -/
def brute_force_loop (fds : List Nat) (fd max_fd : Nat) : List Nat :=
  brute_force_aux fds fd (max_fd - fd)

/-- The whole fallback: start at `FAIL_FILENO + 1`. -/
def fallback_close_all (fds : List Nat) (max_fd : Nat) : List Nat :=
  brute_force_loop fds (FAIL_FILENO + 1) max_fd

/-! ### `mpp_execvpe` (process_unix.cpp lines 154-229) -/

/-- The three relevant shapes of the `envp` argument at the entry checks
(line 155): null pointer, the ambient `environ`, or a distinct custom
vector. -/
inductive EnvpKind where
  | null
  | ambient
  | custom
deriving DecidableEq, Repr

/-- What the entry of `mpp_execvpe` does before any search. -/
inductive ExecvpeAction where
  | delegated_execvp                  -- envp null or environ: plain execvp
  | returned_errno (e : Nat)          -- set errno and return, no exec attempted
  | direct_exec                       -- file contains '/': execve_or_shebang on it
  | searched                          -- bare name: the PATH search loop runs
deriving DecidableEq, Repr

/-- Entry of `mpp_execvpe` (lines 154-170): delegate to `execvp` when
`envp` is null or `environ`; reject an empty `file` with `ENOENT`;
otherwise search iff the name has no `/`. -/
def mpp_execvpe_entry (envp : EnvpKind) (file : String) : ExecvpeAction :=
  match envp with
  | EnvpKind.null => ExecvpeAction.delegated_execvp
  | EnvpKind.ambient => ExecvpeAction.delegated_execvp
  | EnvpKind.custom =>
      if file = "" then ExecvpeAction.returned_errno ENOENT
      else if file.contains '/' then ExecvpeAction.direct_exec
      else ExecvpeAction.searched

/-- Outcome of attempting one PATH candidate: the concatenated path was
too long (`ENAMETOOLONG`, no exec attempted, line 180), the
`execve_or_shebang` attempt failed with an errno, or it succeeded (and
never returned). -/
inductive ExecAttempt where
  | tooLong
  | fails (e : Nat)
  | succeeds
deriving DecidableEq, Repr

/-- The errnos of the `switch` on which the loop tries the next
candidate (lines 199-218). -/
def search_continues (e : Nat) : Bool :=
  e == EACCES || e == ENOENT || e == ENOTDIR || e == ELOOP ||
  e == ESTALE || e == ENODEV || e == ETIMEDOUT

/-- How the search part of `mpp_execvpe` ends. -/
inductive SearchOutcome where
  | replaced            -- some execve succeeded; the call never returns
  | returned (e : Nat)  -- the function returned with errno = e
deriving DecidableEq, Repr

/-- The candidate loop of `mpp_execvpe` (lines 177-227), threading
`errno` and `sticky_errno`: `EACCES` is remembered in `sticky_errno`
and the search continues; the other listed errnos just continue; any
other errno returns at once; on exhaustion `errno` is overwritten with
`sticky_errno` when the latter is nonzero. -/
def search_loop : List ExecAttempt → Nat → Nat → SearchOutcome
  | [], errno, sticky =>
      SearchOutcome.returned (if sticky ≠ 0 then sticky else errno)
  | ExecAttempt.succeeds :: _, _, _ => SearchOutcome.replaced
  | ExecAttempt.tooLong :: rest, _, sticky =>
      search_loop rest ENAMETOOLONG sticky
  | ExecAttempt.fails e :: rest, _, sticky =>
      if e == EACCES then search_loop rest e e
      else if search_continues e then search_loop rest e sticky
      else SearchOutcome.returned e

/-- An attempt on which the loop moves on to the next candidate:
a too-long path (the `continue` at line 182) or an exec failure with
one of the listed errnos.  A successful exec never continues. -/
def attempt_continues (a : ExecAttempt) : Bool :=
  match a with
  | ExecAttempt.tooLong => true
  | ExecAttempt.fails e => search_continues e
  | ExecAttempt.succeeds => false

/-! ### Child Launcher: fatal tail of `child_proc`
(process_unix.cpp lines 308-318) -/

/-- How the duplicated process leaves `child_proc`'s tail. -/
inductive ChildOutcome where
  | replaced               -- mpp_execvpe succeeded: new image running
  | terminated (status : Nat)  -- _exit(status)
  | fatal                  -- mpp::throw_ex: the child dies, no return
deriving DecidableEq, Repr

/-- Modelled from the spec: `mpp::throw_ex<mpp::runtime_error>` is
defined in the `mozart++/core` header, which is not among the source
files; per the spec (§4.4 "each step fatal on failure (process must
terminate, never return to caller code)", §7 "ChdirFailure ...
currently fatal ... the child simply terminates") it terminates the
child process. -/
def throw_ex_fatal : ChildOutcome := ChildOutcome.fatal

/-- Lines 308-318 of `child_proc`: `chdir` failure throws (fatal);
otherwise `mpp_execvpe` either replaces the image or returns, and a
return falls through to `_exit(1)`. -/
def child_proc_tail (chdir_ok : Bool) (exec_replaces : Bool) : ChildOutcome :=
  if !chdir_ok then throw_ex_fatal
  else if exec_replaces then ChildOutcome.replaced
  else ChildOutcome.terminated 1

/-! ### Pipe-end bookkeeping (process_unix.cpp lines 231-264 and
332-360)

The six descriptors of the three `StreamPipe`s. -/

inductive PipeEnd where
  | stdinR
  | stdinW
  | stdoutR
  | stdoutW
  | stderrR
  | stderrW
deriving DecidableEq, Repr

/-- The redirection flags of a `process_startup` that `child_proc` /
`create_process_impl` consult. -/
structure Startup where
  stdin_redirected : Bool
  stdout_redirected : Bool
  stderr_redirected : Bool
  merge_outputs : Bool
deriving DecidableEq, Repr

/-- The `close_fd` calls the child performs on pipe ends, in order
(lines 235-241, 251-260, 262-264): unused ends of non-redirected pipes
(the stderr read end only when not merging), then the three originals
after `dup2`. -/
def child_closes (s : Startup) : List PipeEnd :=
  (if !s.stdin_redirected then [PipeEnd.stdinW] else []) ++
  (if !s.stdout_redirected then [PipeEnd.stdoutR] else []) ++
  (if s.merge_outputs then []
   else if !s.stderr_redirected then [PipeEnd.stderrR] else []) ++
  [PipeEnd.stdinR, PipeEnd.stdoutW, PipeEnd.stderrW]

/-- The `close_fd` calls the parent performs on pipe ends
(lines 334-355): opposite unused ends of non-redirected pipes, except
that with `merge_outputs` set the stderr branch does nothing. -/
def parent_closes (s : Startup) : List PipeEnd :=
  (if !s.stdin_redirected then [PipeEnd.stdinR] else []) ++
  (if !s.stdout_redirected then [PipeEnd.stdoutW] else []) ++
  (if s.merge_outputs then []
   else if !s.stderr_redirected then [PipeEnd.stderrW] else [])

/-! ## Theorems -/

/-- C1: the claim says `poll` reports Running exactly while `waitpid`
with `WNOHANG` returns 0 and Terminated once the child has exited.  The
code does the opposite on the unambiguous path: with `waitpid` returning
0 (child not yet terminated) `process_exited` yields `true`, and with
`waitpid` returning the pid (child terminated and reaped) it yields
`false` — `return result == 0` inverts the meaning its own comment
documents.  The `ECHILD` disambiguation path does match the claim. -/
theorem process_exited_inverts_waitpid :
    process_exited ⟨0, 0, false, true⟩ = some true ∧
    process_exited ⟨1234, 0, false, true⟩ = some false ∧
    process_exited ⟨-1, ECHILD, false, true⟩ = some true := by
  decide

/-- C4: on the entry-list model the in-place shift inserts `/bin/sh`
and the script path and the failure path restores the original vector,
as the claim says; but the array `child_proc` materializes has
`asize + 1` slots while the shifted vector (entries plus terminating
null) needs `asize + 2`, so the caller never reserves the extra leading
slot and the `memmove` writes one slot past the end of the array. -/
theorem execve_without_shebang_overflow :
    ∀ (file argv0 : String) (rest : List String),
      shebang_restore argv0 (shebang_shift file (argv0 :: rest)) = argv0 :: rest ∧
      shebang_slots_needed file (argv0 :: rest) = (argv0 :: rest).length + 2 ∧
      child_argv_slots (argv0 :: rest).length <
        shebang_slots_needed file (argv0 :: rest) := by
  intro file argv0 rest
  refine ⟨rfl, ?_, ?_⟩
  · simp [shebang_slots_needed, shebang_shift]
  · simp [shebang_slots_needed, shebang_shift, child_argv_slots]

/-- C5 counterexample: with the search-path variable present but empty,
`get_path_env` returns the empty string itself, not the fixed default
list, so "absent or is the empty string" overclaims. -/
theorem get_path_env_empty_counterexample :
    get_path_env (some "") = "" ∧ get_path_env (some "") ≠ default_path_env := by
  decide

/-- C5 (amended): the fixed default path list is used exactly when the
variable is absent (`getenv` returned null); any present value — the
empty string included — is used as-is. -/
theorem get_path_env_default_only_when_absent :
    get_path_env none = default_path_env ∧ ∀ s : String, get_path_env (some s) = s :=
  ⟨rfl, fun _ => rfl⟩

/-- The splitting loop always produces at least one segment. -/
theorem split_segments_ne_nil (cs : List Char) : split_segments cs ≠ [] := by
  cases cs with
  | nil => simp [split_segments]
  | cons c rest =>
      unfold split_segments
      by_cases h : c = ':'
      · simp [h]
      · rw [if_neg h]
        cases hs : split_segments rest with
        | nil => simp
        | cons s ss => simp

/-- The splitting loop yields one segment per colon-separated
component: N segments for N-1 colons. -/
theorem split_segments_length (cs : List Char) :
    (split_segments cs).length = cs.count ':' + 1 := by
  induction cs with
  | nil => simp [split_segments]
  | cons c rest ih =>
      unfold split_segments
      by_cases h : c = ':'
      · rw [if_pos h]
        simp [List.count_cons, h, ih]
      · rw [if_neg h]
        cases hs : split_segments rest with
        | nil => exact absurd hs (split_segments_ne_nil rest)
        | cons s ss =>
            have hlen : (s :: ss).length = rest.count ':' + 1 := by
              rw [← hs]
              exact ih
            have hc : (c :: rest).count ':' = rest.count ':' := by
              simp [List.count_cons, h, Ne.symm h]
            simp only [List.length_cons] at hlen ⊢
            rw [hc]
            omega

/-- The intended functional behavior of `effective_pathv`: one `pathv`
entry per colon-separated segment, empty segments replaced by `"."`
(so no entry is empty). -/
theorem pathv_entries_spec (cs : List Char) :
    (pathv_entries cs).length = cs.count ':' + 1 ∧
    ∀ e ∈ pathv_entries cs, e ≠ [] := by
  constructor
  · simp [pathv_entries, split_segments_length]
  · intro e he
    simp only [pathv_entries, List.mem_map] at he
    rcases he with ⟨s, _, rfl⟩
    by_cases h : s = []
    · simp [h]
    · simp only [if_neg h]
      exact h

/-- C6: `effective_pathv` computes the string area as
`reinterpret_cast<char *>(pathv + pathvsize)` — advancing a
`const char **` by `pathvsize` elements of 8 bytes — so for every
segment count and path length the copy of the path string starts and
ends beyond the `malloc(pathvsize + pathsize)` block; the splitting
loop itself (modelled by `pathv_entries`) does yield one entry per
colon-separated segment with empty segments mapped to `"."`. -/
theorem effective_pathv_copy_out_of_bounds :
    ∀ count psize : Nat,
      effective_pathv_alloc count psize < p_byte_offset count + psize := by
  intro count psize
  simp only [effective_pathv_alloc, p_byte_offset, pathvsize, sizeof_char_ptr]
  omega

/-- C8: both failing steps of the child tail are fatal: a failed
`chdir` throws (modelled per the spec as terminating the child), and
when `mpp_execvpe` returns with every candidate exhausted the child
terminates via `_exit(1)` — a fixed non-zero status; no path returns
to caller code. -/
theorem child_proc_fatal_tail :
    (∀ e : Bool, child_proc_tail false e = ChildOutcome.fatal) ∧
    child_proc_tail true false = ChildOutcome.terminated 1 ∧
    (∀ (c e : Bool) (s : Nat),
      child_proc_tail c e = ChildOutcome.terminated s → s ≠ 0) := by
  refine ⟨fun _ => rfl, rfl, ?_⟩
  intro c e s h
  cases c <;> cases e <;>
    simp [child_proc_tail, throw_ex_fatal] at h <;> omega

/-- C8 witness: the fatal-chdir and fixed-status facts at concrete
inputs, via `child_proc_fatal_tail`. -/
theorem child_proc_fatal_tail_witness :
    child_proc_tail false true = ChildOutcome.fatal ∧ (1 : Nat) ≠ 0 :=
  ⟨child_proc_fatal_tail.1 true,
   child_proc_fatal_tail.2.2 true false 1 (by rfl)⟩

/-- Any run of interrupted `waitpid` calls is retried transparently:
`EINTR` outcomes are skipped. -/
theorem wait_for_skips_eintr (k : Nat) (l : List WaitEvent) :
    wait_for (List.replicate k (WaitEvent.err EINTR) ++ l) = wait_for l := by
  induction k with
  | zero => rfl
  | succ n ih =>
      rw [List.replicate_succ, List.cons_append]
      exact ih

/-- C2: `wait_for` retries across any number of interruptions and then:
on "no such child" (`ECHILD`) it returns outcome 0; for a status word of
a normal exit with code `C ≤ 255` it returns `C`; for a status word of
death by signal `S` (`1 ≤ S ≤ 31`) it returns `128 + S`. -/
theorem wait_for_outcomes :
    (∀ k : Nat,
      wait_for (List.replicate k (WaitEvent.err EINTR) ++ [WaitEvent.err ECHILD]) =
        some 0) ∧
    (∀ k C : Nat, C ≤ 255 →
      wait_for (List.replicate k (WaitEvent.err EINTR) ++ [WaitEvent.ok (C * 256)]) =
        some (C : Int)) ∧
    (∀ k S : Nat, 1 ≤ S → S ≤ 31 →
      wait_for (List.replicate k (WaitEvent.err EINTR) ++ [WaitEvent.ok S]) =
        some (128 + (S : Int))) := by
  refine ⟨fun k => ?_, fun k C hC => ?_, fun k S hS1 hS2 => ?_⟩ <;>
    rw [wait_for_skips_eintr]
  · rfl
  · show some (decode_status (C * 256)) = some (C : Int)
    have hex : wifexited (C * 256) = true := by
      unfold wifexited
      have h : (C * 256) % 128 = 0 := by omega
      simp [h]
    have hws : wexitstatus (C * 256) = C := by
      unfold wexitstatus
      omega
    simp [decode_status, hex, hws]
  · show some (decode_status S) = some (128 + (S : Int))
    have hmod : S % 128 = S := by omega
    have hex : wifexited S = false := by
      unfold wifexited
      rw [hmod]
      simp only [beq_eq_false_iff_ne, ne_eq]
      omega
    have hsig : wifsignaled S = true := by
      unfold wifsignaled
      rw [hmod]
      simp only [Bool.and_eq_true, decide_eq_true_eq]
      omega
    have hts : wtermsig S = S := hmod
    simp [decode_status, hex, hsig, hts]

/-- C2 witness: concrete instances of the three outcome shapes via
`wait_for_outcomes`. -/
theorem wait_for_outcomes_witness :
    wait_for (List.replicate 3 (WaitEvent.err EINTR) ++ [WaitEvent.err ECHILD]) =
      some 0 ∧
    wait_for (List.replicate 2 (WaitEvent.err EINTR) ++ [WaitEvent.ok (7 * 256)]) =
      some ((7 : Nat) : Int) ∧
    wait_for (List.replicate 1 (WaitEvent.err EINTR) ++ [WaitEvent.ok 9]) =
      some (128 + ((9 : Nat) : Int)) :=
  ⟨wait_for_outcomes.1 3,
   wait_for_outcomes.2.1 2 7 (by decide),
   wait_for_outcomes.2.2 1 9 (by decide) (by decide)⟩

/-- Closing a descriptor removes exactly it from the open set. -/
theorem mem_close_fd_set (fds : List Nat) (fd x : Nat) :
    x ∈ close_fd_set fds fd ↔ x ∈ fds ∧ x ≠ fd := by
  simp [close_fd_set, List.mem_filter]

/-- The `readdir64` sweep closes exactly the listed descriptors at or
above `from_fd + 2`. -/
theorem scan_loop_mem (l : List Nat) (fds : List Nat) (x : Nat) :
    x ∈ scan_loop l fds ↔ x ∈ fds ∧ (x ∈ l → x < from_fd + 2) := by
  induction l generalizing fds with
  | nil => simp [scan_loop]
  | cons fd rest ih =>
      rw [scan_loop]
      by_cases h6 : from_fd + 2 ≤ fd
      · rw [if_pos h6, ih, mem_close_fd_set]
        constructor
        · rintro ⟨⟨hm, hne⟩, hr⟩
          refine ⟨hm, ?_⟩
          intro hmem
          rcases List.mem_cons.mp hmem with h | h
          · omega
          · exact hr h
        · rintro ⟨hm, hr⟩
          have hne : x ≠ fd := by
            intro he
            have := hr (by simp [he])
            omega
          exact ⟨⟨hm, hne⟩, fun h => hr (List.mem_cons_of_mem _ h)⟩
      · rw [if_neg h6, ih]
        constructor
        · rintro ⟨hm, hr⟩
          refine ⟨hm, ?_⟩
          intro hmem
          rcases List.mem_cons.mp hmem with h | h
          · omega
          · exact hr h
        · rintro ⟨hm, hr⟩
          exact ⟨hm, fun h => hr (List.mem_cons_of_mem _ h)⟩

/-- The loop body iterated `n` times from `fd` closes exactly the
descriptors in `[fd, fd + n)`. -/
theorem brute_force_aux_mem (n : Nat) (fds : List Nat) (fd x : Nat) :
    x ∈ brute_force_aux fds fd n ↔ x ∈ fds ∧ (x < fd ∨ fd + n ≤ x) := by
  induction n generalizing fds fd with
  | zero =>
      constructor
      · intro hm
        exact ⟨hm, by omega⟩
      · exact fun h => h.1
  | succ n ih =>
      rw [brute_force_aux, ih, mem_close_fd_set]
      constructor
      · rintro ⟨⟨hm, hne⟩, hr⟩
        exact ⟨hm, by omega⟩
      · rintro ⟨hm, hr⟩
        have hne : x ≠ fd := by omega
        exact ⟨⟨hm, hne⟩, by omega⟩

/-- The brute-force loop closes exactly the descriptors in
`[fd, max_fd)`. -/
theorem brute_force_loop_mem (fds : List Nat) (fd max_fd x : Nat) :
    x ∈ brute_force_loop fds fd max_fd ↔ x ∈ fds ∧ (x < fd ∨ max_fd ≤ x) := by
  rw [brute_force_loop, brute_force_aux_mem]
  constructor
  · rintro ⟨hm, hr⟩
    exact ⟨hm, by omega⟩
  · rintro ⟨hm, hr⟩
    exact ⟨hm, by omega⟩

/-- C3 counterexample: descriptor 3 is strictly greater than the
highest standard stream index 2, yet with descriptors 0-3 and 42 open
(and `opendir` using the lowest free descriptor, 4) both strategies
leave 3 open. -/
theorem close_all_descriptors_spares_fd3 :
    3 ∈ close_all_descriptors_scan [0, 1, 2, 3, 42] 4 ∧
    3 ∈ fallback_close_all [0, 1, 2, 3, 42] 50 ∧
    2 < 3 := by
  decide

/-- C3 (amended): both strategies close exactly the open descriptors
strictly greater than `FAIL_FILENO = 3` (the fallback only those below
the descriptor-count ceiling): the standard descriptors 0, 1, 2 are
never closed, and descriptor 3 is spared as well.  `dirfd` is the
descriptor `opendir` allocates — per the code's comment the lowest free
one after `from_fd` and `from_fd + 1` were closed, hence either fresh
or one of those two. -/
theorem close_all_descriptors_above_fail_fileno
    (fds0 : List Nat) (dirfd max_fd : Nat)
    (h2 : dirfd ∉ fds0 ∨ dirfd = from_fd ∨ dirfd = from_fd + 1) :
    (∀ x, x ∈ close_all_descriptors_scan fds0 dirfd ↔
      x ∈ fds0 ∧ x ≤ FAIL_FILENO) ∧
    (∀ x, x ∈ fallback_close_all fds0 max_fd ↔
      x ∈ fds0 ∧ (x ≤ FAIL_FILENO ∨ max_fd ≤ x)) := by
  constructor
  · intro x
    show x ∈ close_fd_set (scan_loop _ _) dirfd ↔ _
    rw [mem_close_fd_set, scan_loop_mem]
    constructor
    · rintro ⟨⟨hmem, hbound⟩, hnd⟩
      have hx6 : x < from_fd + 2 := hbound hmem
      rcases List.mem_cons.mp hmem with h | h
      · exact absurd h hnd
      · rw [mem_close_fd_set] at h
        rcases h with ⟨h45, hne5⟩
        rw [mem_close_fd_set] at h45
        rcases h45 with ⟨hm0, hne4⟩
        refine ⟨hm0, ?_⟩
        simp only [from_fd, FAIL_FILENO, STDERR_FILENO] at hx6 hne4 hne5 ⊢
        omega
    · rintro ⟨hm0, hle⟩
      have hne4 : x ≠ from_fd := by
        simp only [from_fd, FAIL_FILENO, STDERR_FILENO] at hle ⊢
        omega
      have hne5 : x ≠ from_fd + 1 := by
        simp only [from_fd, FAIL_FILENO, STDERR_FILENO] at hle ⊢
        omega
      have hnd : x ≠ dirfd := by
        rcases h2 with h | h | h
        · intro he
          rw [he] at hm0
          exact h hm0
        · rw [h]
          exact hne4
        · rw [h]
          exact hne5
      have hmem : x ∈ dirfd :: close_fd_set (close_fd_set fds0 from_fd) (from_fd + 1) := by
        apply List.mem_cons_of_mem
        rw [mem_close_fd_set, mem_close_fd_set]
        exact ⟨⟨hm0, hne4⟩, hne5⟩
      refine ⟨⟨hmem, fun _ => ?_⟩, hnd⟩
      simp only [from_fd, FAIL_FILENO, STDERR_FILENO] at hle ⊢
      omega
  · intro x
    show x ∈ brute_force_loop fds0 (FAIL_FILENO + 1) max_fd ↔ _
    rw [brute_force_loop_mem]
    constructor
    · rintro ⟨hm, hr⟩
      exact ⟨hm, by omega⟩
    · rintro ⟨hm, hr⟩
      exact ⟨hm, by omega⟩

/-- C3 witness: the characterization applied with descriptors 0-3 and
42 open, `opendir` on descriptor 4, ceiling 50: descriptor 42 is closed
by both strategies and descriptor 2 survives both. -/
theorem close_all_descriptors_above_fail_fileno_witness :
    (42 ∈ close_all_descriptors_scan [0, 1, 2, 3, 42] 4 ↔
      42 ∈ [0, 1, 2, 3, 42] ∧ 42 ≤ FAIL_FILENO) ∧
    (2 ∈ fallback_close_all [0, 1, 2, 3, 42] 50 ↔
      2 ∈ [0, 1, 2, 3, 42] ∧ (2 ≤ FAIL_FILENO ∨ 50 ≤ 2)) :=
  ⟨(close_all_descriptors_above_fail_fileno [0, 1, 2, 3, 42] 4 50
      (Or.inr (Or.inl rfl))).1 42,
   (close_all_descriptors_above_fail_fileno [0, 1, 2, 3, 42] 4 50
      (Or.inr (Or.inl rfl))).2 2⟩

/-- Once `sticky_errno` holds `EACCES`, a fully exhausted search
reports `EACCES`. -/
theorem search_loop_sticky_eacces (attempts : List ExecAttempt)
    (h : ∀ a ∈ attempts, attempt_continues a = true) (errno : Nat) :
    search_loop attempts errno EACCES = SearchOutcome.returned EACCES := by
  induction attempts generalizing errno with
  | nil =>
      rw [search_loop]
      norm_num [EACCES]
  | cons a rest ih =>
      have hrest : ∀ b ∈ rest, attempt_continues b = true :=
        fun b hb => h b (List.mem_cons_of_mem _ hb)
      cases a with
      | succeeds =>
          have := h _ (List.mem_cons_self _ _)
          simp [attempt_continues] at this
      | tooLong =>
          rw [search_loop]
          exact ih hrest _
      | fails e =>
          have hc : search_continues e = true := by
            have := h _ (List.mem_cons_self _ _)
            simpa [attempt_continues] using this
          by_cases he : (e == EACCES) = true
          · rw [search_loop, if_pos he]
            have : e = EACCES := by simpa using he
            rw [this]
            exact ih hrest _
          · rw [search_loop, if_neg (by simp_all), if_pos hc]
            exact ih hrest _

/-- C7: the candidate loop of `mpp_execvpe` moves to the next candidate
exactly when the attempted execution failed with one of permission
denied, not found, not a directory, loop, stale handle, no such device
or timed out (`search_continues`); any other errno makes the function
return at once with that errno; and when every candidate is exhausted
and some attempt failed with `EACCES`, the errno left for the caller is
`EACCES`. -/
theorem mpp_execvpe_search_spec :
    (∀ (e : Nat) (rest : List ExecAttempt) (errno sticky : Nat),
      (search_continues e = true →
        search_loop (ExecAttempt.fails e :: rest) errno sticky =
          search_loop rest e (if e == EACCES then e else sticky)) ∧
      (search_continues e = false →
        search_loop (ExecAttempt.fails e :: rest) errno sticky =
          SearchOutcome.returned e)) ∧
    (∀ (attempts : List ExecAttempt) (errno : Nat),
      (∀ a ∈ attempts, attempt_continues a = true) →
      ExecAttempt.fails EACCES ∈ attempts →
      search_loop attempts errno 0 = SearchOutcome.returned EACCES) := by
  constructor
  · intro e rest errno sticky
    constructor
    · intro hc
      by_cases he : (e == EACCES) = true
      · rw [search_loop, if_pos he, if_pos he]
      · rw [search_loop, if_neg he, if_pos hc, if_neg he]
    · intro hc
      have he : (e == EACCES) = false := by
        rcases Bool.eq_false_or_eq_true (e == EACCES) with h | h
        · have : e = EACCES := by simpa using h
          rw [this] at hc
          simp [search_continues, EACCES] at hc
        · exact h
      rw [search_loop, if_neg (by simp [he]), if_neg (by simp [hc])]
  · intro attempts
    induction attempts with
    | nil =>
        intro errno _ habs
        simp at habs
    | cons a rest ih =>
        intro errno h hmem
        have hrest : ∀ b ∈ rest, attempt_continues b = true :=
          fun b hb => h b (List.mem_cons_of_mem _ hb)
        cases a with
        | succeeds =>
            have := h _ (List.mem_cons_self _ _)
            simp [attempt_continues] at this
        | tooLong =>
            rw [search_loop]
            have hmem' : ExecAttempt.fails EACCES ∈ rest := by
              rcases List.mem_cons.mp hmem with h' | h'
              · exact absurd h' (by simp)
              · exact h'
            exact ih _ hrest hmem'
        | fails e =>
            have hc : search_continues e = true := by
              have := h _ (List.mem_cons_self _ _)
              simpa [attempt_continues] using this
            by_cases he : (e == EACCES) = true
            · rw [search_loop, if_pos he]
              have heq : e = EACCES := by simpa using he
              rw [heq]
              exact search_loop_sticky_eacces rest hrest _
            · rw [search_loop, if_neg he, if_pos hc]
              have hmem' : ExecAttempt.fails EACCES ∈ rest := by
                rcases List.mem_cons.mp hmem with h' | h'
                · have : e = EACCES := by
                    injection h'.symm
                  simp [this] at he
                · exact h'
              exact ih _ hrest hmem'

/-- C7 witness: concrete instances via `mpp_execvpe_search_spec`: a
not-found attempt continues the search, an unlisted errno (22,
`EINVAL`) aborts it, and an exhausted search that once saw `EACCES`
reports `EACCES`. -/
theorem mpp_execvpe_search_spec_witness :
    search_loop [ExecAttempt.fails ENOENT] 0 0 =
      search_loop [] ENOENT (if ENOENT == EACCES then ENOENT else 0) ∧
    search_loop [ExecAttempt.fails 22] 0 0 = SearchOutcome.returned 22 ∧
    search_loop [ExecAttempt.fails EACCES, ExecAttempt.fails ENOENT] 0 0 =
      SearchOutcome.returned EACCES :=
  ⟨(mpp_execvpe_search_spec.1 ENOENT [] 0 0).1 (by decide),
   (mpp_execvpe_search_spec.1 22 [] 0 0).2 (by decide),
   mpp_execvpe_search_spec.2 [ExecAttempt.fails EACCES, ExecAttempt.fails ENOENT] 0
     (by decide) (by decide)⟩

/-- C10: with a custom (non-null, non-`environ`) environment vector and
an empty command name, `mpp_execvpe` sets `errno = ENOENT` and returns
without attempting any image replacement. -/
theorem mpp_execvpe_empty_name :
    mpp_execvpe_entry EnvpKind.custom "" = ExecvpeAction.returned_errno ENOENT := by
  decide

/-- C9 counterexample: with nothing redirected and merge-outputs set,
the parent closes neither end of the stderr pipe — its `merge_outputs`
branch does nothing — so the stderr write end is not closed by the
parent side, contrary to the claim's "including the stderr pipe when
merge-outputs is set". -/
theorem parent_skips_merged_stderr :
    (Startup.mk false false false true).merge_outputs = true ∧
    (Startup.mk false false false true).stderr_redirected = false ∧
    PipeEnd.stderrW ∉ parent_closes (Startup.mk false false false true) ∧
    PipeEnd.stderrR ∉ parent_closes (Startup.mk false false false true) := by
  decide

/-- C9 (amended): for every flag combination, each pipe end is closed
at most once per side, and exactly these ends are closed: the child
always closes the three originals (stdin read, stdout write, stderr
write), plus the unused end of each non-redirected pipe — the stderr
read end only when merge-outputs is unset; the parent closes the
opposite unused end of each non-redirected pipe, except that with
merge-outputs set it closes neither stderr-pipe end. -/
theorem pipe_ends_closed_characterization :
    ∀ ri ro re m : Bool,
      (child_closes (Startup.mk ri ro re m)).count PipeEnd.stdinR = 1 ∧
      (child_closes (Startup.mk ri ro re m)).count PipeEnd.stdoutW = 1 ∧
      (child_closes (Startup.mk ri ro re m)).count PipeEnd.stderrW = 1 ∧
      (child_closes (Startup.mk ri ro re m)).count PipeEnd.stdinW =
        (if ri then 0 else 1) ∧
      (child_closes (Startup.mk ri ro re m)).count PipeEnd.stdoutR =
        (if ro then 0 else 1) ∧
      (child_closes (Startup.mk ri ro re m)).count PipeEnd.stderrR =
        (if !m && !re then 1 else 0) ∧
      (parent_closes (Startup.mk ri ro re m)).count PipeEnd.stdinR =
        (if ri then 0 else 1) ∧
      (parent_closes (Startup.mk ri ro re m)).count PipeEnd.stdoutW =
        (if ro then 0 else 1) ∧
      (parent_closes (Startup.mk ri ro re m)).count PipeEnd.stderrW =
        (if !m && !re then 1 else 0) ∧
      (parent_closes (Startup.mk ri ro re m)).count PipeEnd.stdinW = 0 ∧
      (parent_closes (Startup.mk ri ro re m)).count PipeEnd.stdoutR = 0 ∧
      (parent_closes (Startup.mk ri ro re m)).count PipeEnd.stderrR = 0 := by
  decide

end ProcessUnix
